import Mathlib

/-!
# Verification of the shma-infrastructure format engines

A shallow embedding, in Lean 4, of the two pure "format engines" of the
repository: the minimal YAML-subset parser (`src/yaml/__init__.py`) and the
minimal JSON-Schema validator (`src/jsonschema/__init__.py`), together with
theorems settling the specification claims about them.

Modelling conventions:

* Python's dynamic values (`None`/`bool`/`int`/`float`/`str`/`list`/`dict`)
  are embedded as the tagged union `Value`.  Python `float` is embedded as an
  exact rational carrying the decimal value a float literal denotes; no claim
  depends on IEEE rounding.  Python `dict` is embedded as an association list
  in insertion order; `d[k] = v` keeps the position (and original key object)
  of an existing key, as CPython does.
* Host-language library calls that the source delegates to and that are not
  part of the repository (`ast.literal_eval`, the `_literal_eval` wrapper's
  evaluation, `json.loads`, the filesystem behind `pathlib`, `re.search`) are
  parameters of the embedding, collected in the structure `Host`.  No theorem
  depends on their behaviour except through explicit hypotheses or explicit
  instantiation at inputs where the source never consults them.
* Python string operations are embedded over the character list of the
  string.  `str.strip()` and friends strip the ASCII whitespace characters
  (the inputs under scrutiny contain no exotic Unicode whitespace), and
  `str.splitlines` splits on `'\n'` (the sources feed it `'\n'`-separated
  text).  `str.lower()` is embedded as ASCII lowering.
* The unbounded `while` loops and the mutual recursion of the parser are
  embedded with an explicit fuel argument; the public entry points supply
  fuel that is ample for the number of loop iterations, which is bounded by
  the line count.  Running out of fuel yields an error value, so no theorem
  can mistake divergence for success.
-/

/-- The tagged union of parsed values: Python `None`, `bool`, `int`, `float`,
`str`, `list` and `dict` as produced by the parser and consumed by the
validator.  A `mapping` is an insertion-ordered association list. -/
inductive Value where
  | null
  | bool (b : Bool)
  | int (n : Int)
  | float (q : Rat)
  | str (s : String)
  | seq (xs : List Value)
  | mapping (entries : List (Value × Value))
  deriving Repr, Inhabited

mutual
/-- Structural equality on `Value`, written as a mutual recursion because no
deriving handler applies to the nested `List` positions.  It embeds the
Python `==` used for dict-key lookup on the scalar keys the parser produces
(cross-type numeric equalities such as `1 == 1.0 == True` are not modelled;
no code path under scrutiny compares keys of different tags). -/
def valueBeq : Value → Value → Bool
  | .null, .null => true
  | .bool a, .bool b => a == b
  | .int a, .int b => a == b
  | .float a, .float b => a == b
  | .str a, .str b => a == b
  | .seq a, .seq b => valueBeqList a b
  | .mapping a, .mapping b => valueBeqPairs a b
  | _, _ => false

/-- Elementwise `valueBeq` on lists. -/
def valueBeqList : List Value → List Value → Bool
  | [], [] => true
  | x :: xs, y :: ys => valueBeq x y && valueBeqList xs ys
  | _, _ => false

/-- Pairwise `valueBeq` on association lists. -/
def valueBeqPairs : List (Value × Value) → List (Value × Value) → Bool
  | [], [] => true
  | (k₁, v₁) :: xs, (k₂, v₂) :: ys =>
      valueBeq k₁ k₂ && valueBeq v₁ v₂ && valueBeqPairs xs ys
  | _, _ => false
end

mutual
theorem valueBeq_refl : ∀ v : Value, valueBeq v v = true
  | .null => rfl
  | .bool b => by simp [valueBeq]
  | .int n => by simp [valueBeq]
  | .float q => by simp [valueBeq]
  | .str s => by simp [valueBeq]
  | .seq xs => by simpa [valueBeq] using valueBeqList_refl xs
  | .mapping m => by simpa [valueBeq] using valueBeqPairs_refl m

theorem valueBeqList_refl : ∀ xs : List Value, valueBeqList xs xs = true
  | [] => rfl
  | x :: xs => by simp [valueBeqList, valueBeq_refl x, valueBeqList_refl xs]

theorem valueBeqPairs_refl : ∀ m : List (Value × Value), valueBeqPairs m m = true
  | [] => rfl
  | (k, v) :: m => by
      simp [valueBeqPairs, valueBeq_refl k, valueBeq_refl v, valueBeqPairs_refl m]
end

mutual
theorem valueBeq_eq : ∀ a b : Value, valueBeq a b = true → a = b
  | .null, .null, _ => rfl
  | .bool _, .bool _, h => by simpa [valueBeq] using h
  | .int _, .int _, h => by simpa [valueBeq] using h
  | .float _, .float _, h => by simpa [valueBeq] using h
  | .str _, .str _, h => by simpa [valueBeq] using h
  | .seq a, .seq b, h => by
      rw [valueBeqList_eq a b (by simpa [valueBeq] using h)]
  | .mapping a, .mapping b, h => by
      rw [valueBeqPairs_eq a b (by simpa [valueBeq] using h)]
  | .null, .bool _, h | .null, .int _, h | .null, .float _, h | .null, .str _, h
  | .null, .seq _, h | .null, .mapping _, h
  | .bool _, .null, h | .bool _, .int _, h | .bool _, .float _, h | .bool _, .str _, h
  | .bool _, .seq _, h | .bool _, .mapping _, h
  | .int _, .null, h | .int _, .bool _, h | .int _, .float _, h | .int _, .str _, h
  | .int _, .seq _, h | .int _, .mapping _, h
  | .float _, .null, h | .float _, .bool _, h | .float _, .int _, h | .float _, .str _, h
  | .float _, .seq _, h | .float _, .mapping _, h
  | .str _, .null, h | .str _, .bool _, h | .str _, .int _, h | .str _, .float _, h
  | .str _, .seq _, h | .str _, .mapping _, h
  | .seq _, .null, h | .seq _, .bool _, h | .seq _, .int _, h | .seq _, .float _, h
  | .seq _, .str _, h | .seq _, .mapping _, h
  | .mapping _, .null, h | .mapping _, .bool _, h | .mapping _, .int _, h
  | .mapping _, .float _, h | .mapping _, .str _, h | .mapping _, .seq _, h =>
      by simp [valueBeq] at h

theorem valueBeqList_eq : ∀ a b : List Value, valueBeqList a b = true → a = b
  | [], [], _ => rfl
  | x :: xs, y :: ys, h => by
      have h' := h
      simp only [valueBeqList, Bool.and_eq_true] at h'
      rw [valueBeq_eq x y h'.1, valueBeqList_eq xs ys h'.2]
  | [], _ :: _, h => by simp [valueBeqList] at h
  | _ :: _, [], h => by simp [valueBeqList] at h

theorem valueBeqPairs_eq :
    ∀ a b : List (Value × Value), valueBeqPairs a b = true → a = b
  | [], [], _ => rfl
  | (k₁, v₁) :: xs, (k₂, v₂) :: ys, h => by
      have h' := h
      simp only [valueBeqPairs, Bool.and_eq_true] at h'
      rw [valueBeq_eq k₁ k₂ h'.1.1, valueBeq_eq v₁ v₂ h'.1.2, valueBeqPairs_eq xs ys h'.2]
  | [], _ :: _, h => by simp [valueBeqPairs] at h
  | _ :: _, [], h => by simp [valueBeqPairs] at h
end

instance : DecidableEq Value := fun a b =>
  if h : valueBeq a b = true then .isTrue (valueBeq_eq a b h)
  else .isFalse (fun he => absurd (he ▸ valueBeq_refl a) h)

/-- The error raised when the YAML input cannot be parsed (`YAMLError`). -/
structure YamlErr where
  msg : String
  deriving Repr, DecidableEq

/-- One raw input line: the `_Line` dataclass `(text, number)`. -/
structure Line where
  text : String
  number : Nat
  deriving Repr, DecidableEq

/-- The host-language functions the source delegates to, left as parameters
of the embedding (see the module docstring). -/
structure Host where
  /-- Models `ast.literal_eval` wrapped to return a `Value`, as called on
  quoted scalars; an exception becomes `.error`. -/
  astEval : String → Except YamlErr Value
  /-- Models `_literal_eval` (the keyword-substituting wrapper around
  `ast.literal_eval` used for inline flow collections). -/
  litEval : String → Except YamlErr Value
  /-- Models `json.loads`; `none` is a `json.JSONDecodeError`. -/
  jloads : String → Option Value
  /-- Models the filesystem: maps a path to the text of the file there, or
  `none` when no file exists at that path. -/
  fs : String → Option String
  /-- Models `re.search pattern instance is not None`. -/
  research : String → String → Bool

/- ## Python string helpers, over character lists -/

/-- Python whitespace test for `str.strip` (ASCII subset; see header). -/
def isWs (c : Char) : Bool :=
  c == ' ' || c == '\t' || c == '\n' || c == '\r' || c == '\x0b' || c == '\x0c'

/-- `str.lstrip()`. -/
def pyLStrip (s : String) : String :=
  ⟨s.data.dropWhile isWs⟩

/-- `str.rstrip()`. -/
def pyRStrip (s : String) : String :=
  ⟨(s.data.reverse.dropWhile isWs).reverse⟩

/-- `str.strip()`. -/
def pyStrip (s : String) : String :=
  ⟨((s.data.dropWhile isWs).reverse.dropWhile isWs).reverse⟩

/-- `str.lower()` on one character (ASCII lowering, see header), written as
an explicit table so proofs can invert it by cases. -/
def lowerChar (c : Char) : Char :=
  match c with
  | 'A' => 'a' | 'B' => 'b' | 'C' => 'c' | 'D' => 'd' | 'E' => 'e' | 'F' => 'f'
  | 'G' => 'g' | 'H' => 'h' | 'I' => 'i' | 'J' => 'j' | 'K' => 'k' | 'L' => 'l'
  | 'M' => 'm' | 'N' => 'n' | 'O' => 'o' | 'P' => 'p' | 'Q' => 'q' | 'R' => 'r'
  | 'S' => 's' | 'T' => 't' | 'U' => 'u' | 'V' => 'v' | 'W' => 'w' | 'X' => 'x'
  | 'Y' => 'y' | 'Z' => 'z'
  | c => c

/-- `str.lower()` (ASCII lowering, see header). -/
def pyLower (s : String) : String :=
  ⟨s.data.map lowerChar⟩

/-- The character class `[0-9]`, written as an explicit enumeration so
proofs can invert it by cases. -/
def isDigitChar (c : Char) : Bool :=
  c == '0' || c == '1' || c == '2' || c == '3' || c == '4' ||
  c == '5' || c == '6' || c == '7' || c == '8' || c == '9'

/-- Whether the character list `p` is an initial segment of `l`. -/
def listStarts : List Char → List Char → Bool
  | [], _ => true
  | _ :: _, [] => false
  | p :: ps, c :: cs => p == c && listStarts ps cs

/-- `str.startswith(p)`. -/
def strStarts (s p : String) : Bool := listStarts p.data s.data

/-- `str.endswith(p)`. -/
def strEnds (s p : String) : Bool := listStarts p.data.reverse s.data.reverse

/-- `c in s` for a character. -/
def strHas (s : String) (c : Char) : Bool := s.data.contains c

/-- `s[n:]` (drop the first `n` characters). -/
def pyDrop (s : String) (n : Nat) : String := ⟨s.data.drop n⟩

/-- `s.split(c, 1)` when `c` occurs in `s`: the text before the first
occurrence and the text after it.  When `c` does not occur the second
component is empty (every call site guards with a containment check). -/
def splitFirst (c : Char) (s : String) : String × String :=
  go s.data []
where
  go : List Char → List Char → String × String
    | [], acc => (⟨acc⟩, "")
    | x :: xs, acc => if x == c then (⟨acc⟩, ⟨xs⟩) else go xs (acc ++ [x])

/-- Count of leading space characters: the `indent` property of `_Line`
(`len(text) - len(text.lstrip(" "))`). -/
def indentOf (l : Line) : Nat := (l.text.data.takeWhile (· == ' ')).length

/-- The `stripped` property of `_Line`. -/
def strippedOf (l : Line) : String := pyStrip l.text

/-- `str.splitlines()` for `'\n'`-separated text (see header): `""` gives
`[]`, a trailing newline does not create a final empty line. -/
def pySplitlinesAux : List Char → List Char → List String
  | [], acc => if acc.isEmpty then [] else [⟨acc⟩]
  | c :: rest, acc =>
      if c == '\n' then ⟨acc⟩ :: pySplitlinesAux rest []
      else pySplitlinesAux rest (acc ++ [c])

/-- `str.splitlines()`. -/
def pySplitlines (s : String) : List String := pySplitlinesAux s.data []

/-- Python truthiness of a `Value` (`bool(x)`). -/
def pyTruthy : Value → Bool
  | .null => false
  | .bool b => b
  | .int n => n != 0
  | .float q => q != 0
  | .str s => !s.isEmpty
  | .seq xs => !xs.isEmpty
  | .mapping m => !m.isEmpty

/-- `x or {}` as applied to a sub-schema value. -/
def pyOrEmpty (v : Value) : Value :=
  if pyTruthy v then v else .mapping []

/-- Association-list lookup with Python `==` on keys (`k in d` / `d[k]`). -/
def lookupVal : List (Value × Value) → Value → Option Value
  | [], _ => none
  | (k', v') :: rest, k => if valueBeq k' k then some v' else lookupVal rest k

/-- `d[k] = v` on a Python dict: replace the value at an existing key in
place (keeping the original key object and position), otherwise append. -/
def dictInsert : List (Value × Value) → Value → Value → List (Value × Value)
  | [], k, v => [(k, v)]
  | (k', v') :: rest, k, v =>
      if valueBeq k' k then (k', v) :: rest else (k', v') :: dictInsert rest k v

/-- `d.update(other)` on Python dicts: insert the entries of `other` in
order. -/
def dictUpdate (d other : List (Value × Value)) : List (Value × Value) :=
  other.foldl (fun acc (kv : Value × Value) => dictInsert acc kv.1 kv.2) d

/-- `True` exactly on `Except.error`. -/
def isErr {ε α : Type} : Except ε α → Bool
  | .error _ => true
  | .ok _ => false

/-- `True` exactly on `Except.ok`. -/
def isOkE {ε α : Type} : Except ε α → Bool
  | .error _ => false
  | .ok _ => true

/-- `Except`-valued map over a list, failing at the first error.  Embeds a
Python `for` loop (or comprehension) whose body may raise. -/
def exceptMapM {ε α β : Type} (f : α → Except ε β) : List α → Except ε (List β)
  | [] => .ok []
  | a :: as =>
    match f a with
    | .error e => .error e
    | .ok b =>
      match exceptMapM f as with
      | .error e => .error e
      | .ok bs => .ok (b :: bs)

/- ## The YAML-subset parser (`src/yaml/__init__.py`) -/

/-- The loop body of `_strip_comment`: walk the characters tracking quoting
state; on an unquoted `#` return the prefix right-stripped.  This transcribes
the source faithfully, including the slip in the double-quote branch, which
executes `in_double = not in_single` (under the guard `not in_single`, so
`in_double` is set to `True` and never cleared again). -/
def strip_comment_go : List Char → List Char → Bool → Bool → String
  | [], acc, _, _ => pyRStrip ⟨acc⟩
  | c :: rest, acc, inS, inD =>
    if c == '\'' && !inD then strip_comment_go rest (acc ++ [c]) (!inS) inD
    else if c == '"' && !inS then strip_comment_go rest (acc ++ [c]) inS (!inS)
    else if c == '#' && !inS && !inD then pyRStrip ⟨acc⟩
    else strip_comment_go rest (acc ++ [c]) inS inD

/-- `_strip_comment`. -/
def strip_comment (value : String) : String :=
  strip_comment_go value.data [] false false

/-- `_BOOL_MAP`, in its source order. -/
def boolKeywordMap : List (String × Bool) :=
  [("true", true), ("false", false), ("yes", true), ("no", false),
   ("on", true), ("off", false)]

/-- `_NULL_VALUES`. -/
def nullValues : List String := ["null", "~", ""]

/-- `_BLOCK_INDICATORS`. -/
def blockIndicators : List String := ["|", "|-", "|+", ">", ">-", ">+"]

/-- Association lookup on string keys (`lowered in _BOOL_MAP` plus the
subsequent `_BOOL_MAP[lowered]`). -/
def lookupStr : List (String × Bool) → String → Option Bool
  | [], _ => none
  | (k, v) :: rest, s => if k == s then some v else lookupStr rest s

/-- `value[0] in {'"', "'"}` (false on the empty string; the call site has
already excluded it). -/
def isQuoteLead (s : String) : Bool :=
  match s.data with
  | [] => false
  | c :: _ => c == '"' || c == '\''

/-- All characters are ASCII digits. -/
def allDigits (l : List Char) : Bool := l.all isDigitChar

/-- `re.fullmatch(r"[-+]?[0-9]+", value)` succeeds. -/
def isIntShaped (s : String) : Bool :=
  match s.data with
  | [] => false
  | c :: rest =>
    if c == '+' || c == '-' then !rest.isEmpty && allDigits rest
    else isDigitChar c && allDigits rest

/-- The numeric value of a digit string. -/
def digitsToNat (l : List Char) : Nat :=
  l.foldl (fun acc c => acc * 10 + (c.toNat - '0'.toNat)) 0

/-- `int(value, 10)` on an integer-shaped string. -/
def parseIntLit (s : String) : Int :=
  match s.data with
  | '+' :: rest => (digitsToNat rest : Int)
  | '-' :: rest => -(digitsToNat rest : Int)
  | l => (digitsToNat l : Int)

/-- Drop one leading `+`/`-` sign (the `[-+]?` of the numeric regexes). -/
def splitSign : List Char → List Char
  | c :: rest => if c == '+' || c == '-' then rest else c :: rest
  | [] => []

/-- `re.fullmatch(r"[-+]?[0-9]*\.[0-9]+", value)` succeeds. -/
def isFloatShaped (s : String) : Bool :=
  match (splitSign s.data).drop ((splitSign s.data).takeWhile isDigitChar).length with
  | '.' :: frac => !frac.isEmpty && allDigits frac
  | _ => false

/-- `float(value)` on a float-shaped string, as the exact rational the
decimal literal denotes (see the header on floats). -/
def parseFloatLit (s : String) : Rat :=
  let l := splitSign s.data
  let intpart := l.takeWhile isDigitChar
  let frac := l.drop (intpart.length + 1)
  let num : Int := digitsToNat intpart * 10 ^ frac.length + digitsToNat frac
  match s.data with
  | '-' :: _ => mkRat (-num) (10 ^ frac.length)
  | _ => mkRat num (10 ^ frac.length)

/-- The element-splitting loop of `_parse_inline_list`: split the inner text
on top-level commas, tracking quote state and bracket depth exactly as the
source does, stripping each element at flush time and dropping a trailing
empty accumulator. -/
def flowElems : List Char → List Char → List String → Int → Bool → Bool → List String
  | [], current, elements, _, _, _ =>
      if current.isEmpty then elements else elements ++ [pyStrip ⟨current⟩]
  | c :: rest, current, elements, depth, inS, inD =>
      let st : Bool × Bool × Int :=
        if c == '\'' && !inD then (!inS, inD, depth)
        else if c == '"' && !inS then (inS, !inD, depth)
        else if c == '[' || c == '{' then (inS, inD, depth + 1)
        else if c == ']' || c == '}' then (inS, inD, depth - 1)
        else (inS, inD, depth)
      if c == ',' && st.2.2 == 0 && !st.1 && !st.2.1 then
        flowElems rest [] (elements ++ [pyStrip ⟨current⟩]) st.2.2 st.1 st.2.1
      else flowElems rest (current ++ [c]) elements st.2.2 st.1 st.2.1

mutual
/-- `_parse_scalar`, with explicit fuel for the mutual recursion through
inline flow lists.  The dead `isinstance(as_int, bool)` guard and the
unreachable `except ValueError` arms of the numeric branches are omitted
(`int`/`float` cannot fail on text the regexes accepted). -/
def parse_scalarF (E : Host) : Nat → String → Bool → Except YamlErr Value
  | 0, _, _ => .error ⟨"fuel exhausted"⟩
  | fuel+1, raw, forKey =>
    let value := pyStrip raw
    if value = "" then .ok (if forKey then .str "" else .null)
    else if isQuoteLead value then E.astEval value
    else
      let lowered := pyLower value
      match (if forKey then none else lookupStr boolKeywordMap lowered) with
      | some b => .ok (.bool b)
      | none =>
        if !forKey && nullValues.contains lowered then .ok .null
        else if !forKey && isIntShaped value then .ok (.int (parseIntLit value))
        else if !forKey && isFloatShaped value then .ok (.float (parseFloatLit value))
        else if strStarts value "[" && strEnds value "]" then
          match E.litEval value with
          | .ok v => .ok v
          | .error _ => parse_inline_listF E fuel value
        else if strStarts value "\x7b" && strEnds value "\x7d" then E.litEval value
        else .ok (.str value)

/-- `_parse_inline_list` (reached when `_literal_eval` rejects a bracketed
scalar): strip the brackets, split on top-level commas, and parse each
element as a scalar. -/
def parse_inline_listF (E : Host) : Nat → String → Except YamlErr Value
  | 0, _ => .error ⟨"fuel exhausted"⟩
  | fuel+1, value =>
    let inner := pyStrip ⟨(value.data.drop 1).dropLast⟩
    if inner = "" then .ok (.seq [])
    else
      match exceptMapM (fun e => parse_scalarF E fuel e false)
          (flowElems inner.data [] [] 0 false false) with
      | .error e => .error e
      | .ok vs => .ok (.seq vs)
end

/-- `_parse_scalar` with ample fuel (flow nesting strictly shrinks the text,
so `length + 1` levels can never be exhausted). -/
def parse_scalar (E : Host) (raw : String) (forKey : Bool) : Except YamlErr Value :=
  parse_scalarF E (raw.length + 1) raw forKey

/-- The `break` condition of the capture loop in `_parse_block_scalar`. -/
def blockBreak (line : Line) (base : Nat) : Bool :=
  (strippedOf line == "" && decide (indentOf line ≤ base)) ||
  (decide (indentOf line ≤ base) && strippedOf line != "" &&
    !(strStarts (strippedOf line) "#"))

/-- `min` of a nonempty list of naturals (call sites guard emptiness). -/
def minNatList : List Nat → Nat
  | [] => 0
  | [x] => x
  | x :: rest => min x (minNatList rest)

/-- `_parse_block_scalar`: capture the strictly-more-indented body lines
after `index`, strip the common indentation column, join literally (`|`) or
folded (`>`), then chomp according to the indicator suffix.  Returns the
scalar text and the cursor just past the body. -/
def parse_block_scalar (lines : List Line) (index : Nat) (indicator : String)
    (base : Nat) : String × Nat :=
  let captured := (lines.drop (index + 1)).takeWhile (fun l => !(blockBreak l base))
  let cursor := index + 1 + captured.length
  match captured with
  | [] => ((if strEnds indicator "-" then "" else "\n"), cursor)
  | _ =>
    let blockLines := captured.map (fun l => (indentOf l, l.text))
    let relevant := (blockLines.filter (fun p => pyStrip p.2 != "")).map Prod.fst
    let minIndent := if relevant.isEmpty then base + 1 else minNatList relevant
    let processed := blockLines.map
      (fun p => if pyStrip p.2 == "" then "" else pyDrop p.2 minIndent)
    let value :=
      if strStarts indicator "|" then String.intercalate "\n" processed
      else
        let groups := processed.splitBy (fun a b => (a == "") == (b == ""))
        let parts := groups.map (fun g =>
          match g with
          | "" :: _ => ""
          | _ => String.intercalate " " g)
        String.intercalate "\n" parts
    if strEnds indicator "-" then (value, cursor)
    else if strEnds indicator "+" then (value ++ "\n", cursor)
    else (value ++ "\n", cursor)

/-- The accumulation loop of `_split_documents`: blank and comment lines
join the current document; bare `---`/`...` flush it (a flush of an empty
accumulator appends nothing). -/
def split_documents_go : List Line → List (List Line) → List Line → List (List Line)
  | [], docs, current => if current.isEmpty then docs else docs ++ [current]
  | l :: rest, docs, current =>
    let s := strippedOf l
    if s == "" || strStarts s "#" then split_documents_go rest docs (current ++ [l])
    else if s == "---" then
      split_documents_go rest (if current.isEmpty then docs else docs ++ [current]) []
    else if s == "..." then
      split_documents_go rest (if current.isEmpty then docs else docs ++ [current]) []
    else split_documents_go rest docs (current ++ [l])

/-- Number the input lines 1-based (the `rstrip("\n")` of the source is a
no-op after `splitlines`). -/
def mkLines (text : String) : List Line :=
  (pySplitlines text).enum.map (fun p => ⟨p.2, p.1 + 1⟩)

/-- `_split_documents`: an input with no documents yields one empty
document. -/
def split_documents (text : String) : List (List Line) :=
  let docs := split_documents_go (mkLines text) [] []
  if docs.isEmpty then [[]] else docs

/-- The collection being formed by one `_parse_structure` scan: `None`, a
list, or a dict. -/
inductive Coll where
  | none
  | seq (xs : List Value)
  | map (m : List (Value × Value))
  deriving Repr

/-- The value `_parse_structure` returns for a finished scan (a scan that
consumed nothing returns Python `None`). -/
def finishColl : Coll → Value
  | .none => .null
  | .seq xs => .seq xs
  | .map m => .mapping m

mutual
/-- The scanning loop of `_parse_structure`, with the mutable locals
`collection` and `index` as explicit arguments.  Each iteration consumes the
line at `index` (skipping blanks/comments, stopping below `indent`), extends
the homogeneous collection, and recurses; mixing markers is fatal. -/
def parse_structure_loop (E : Host) :
    Nat → List Line → Nat → Nat → Coll → Except YamlErr (Value × Nat)
  | 0, _, _, _, _ => .error ⟨"fuel exhausted"⟩
  | fuel+1, lines, index, indent, col =>
    match lines.get? index with
    | Option.none => .ok (finishColl col, index)
    | some line =>
      let stripped := strippedOf line
      if stripped == "" || strStarts stripped "#" then
        parse_structure_loop E fuel lines (index + 1) indent col
      else if indentOf line < indent then .ok (finishColl col, index)
      else if strStarts stripped "- " then
        match col with
        | .map _ =>
            .error ⟨"Mixed list/dict structure near line " ++ toString line.number⟩
        | _ =>
          let xs := match col with | .seq xs => xs | _ => []
          let value_part := strip_comment (pyDrop stripped 2)
          if blockIndicators.contains value_part then
            let r := parse_block_scalar lines index value_part (indentOf line)
            parse_structure_loop E fuel lines r.2 indent (.seq (xs ++ [.str r.1]))
          else if value_part == "" then
            match parse_structure_loop E fuel lines (index + 1) (indentOf line + 2) .none with
            | .error e => .error e
            | .ok (v, idx) => parse_structure_loop E fuel lines idx indent (.seq (xs ++ [v]))
          else if strHas value_part ':' &&
              !(strStarts (pyStrip value_part) "\x7b" || strStarts (pyStrip value_part) "[" ||
                strStarts (pyStrip value_part) "'" || strStarts (pyStrip value_part) "\"") then
            match parse_inline_mapping E fuel lines index (indentOf line) value_part with
            | .error e => .error e
            | .ok (m, idx) =>
                parse_structure_loop E fuel lines idx indent (.seq (xs ++ [.mapping m]))
          else
            match parse_scalar E value_part false with
            | .error e => .error e
            | .ok v => parse_structure_loop E fuel lines (index + 1) indent (.seq (xs ++ [v]))
      else if !(strHas stripped ':') then
        .error ⟨"Expected mapping entry at line " ++ toString line.number⟩
      else
        match col with
        | .seq _ =>
            .error ⟨"Mixed list/dict structure near line " ++ toString line.number⟩
        | _ =>
          let m := match col with | .map m => m | _ => []
          let kv := splitFirst ':' stripped
          match parse_scalar E kv.1 true with
          | .error e => .error e
          | .ok key =>
            let value_part := pyLStrip (strip_comment kv.2)
            if blockIndicators.contains value_part then
              let r := parse_block_scalar lines index value_part (indentOf line)
              parse_structure_loop E fuel lines r.2 indent (.map (dictInsert m key (.str r.1)))
            else if value_part == "" then
              match parse_structure_loop E fuel lines (index + 1) (indentOf line + 2) .none with
              | .error e => .error e
              | .ok (v, idx) =>
                  parse_structure_loop E fuel lines idx indent (.map (dictInsert m key v))
            else
              match parse_scalar E value_part false with
              | .error e => .error e
              | .ok v =>
                  parse_structure_loop E fuel lines (index + 1) indent (.map (dictInsert m key v))
termination_by structural fuel => fuel

/-- The head of `_parse_inline_mapping`: parse the `key: value` text found
after a sequence dash, then continue collecting sibling entries. -/
def parse_inline_mapping (E : Host) :
    Nat → List Line → Nat → Nat → String → Except YamlErr (List (Value × Value) × Nat)
  | 0, _, _, _, _ => .error ⟨"fuel exhausted"⟩
  | fuel+1, lines, index, base, firstEntry =>
    let kv := splitFirst ':' firstEntry
    match parse_scalar E kv.1 true with
    | .error e => .error e
    | .ok key =>
      let remainder := pyStrip kv.2
      if remainder != "" then
        match parse_scalar E remainder false with
        | .error e => .error e
        | .ok v => parse_inline_mapping_loop E fuel lines (index + 1) base [(key, v)]
      else
        match parse_structure_loop E fuel lines (index + 1) (base + 2) .none with
        | .error e => .error e
        | .ok (v, cursor) => parse_inline_mapping_loop E fuel lines cursor base [(key, v)]
termination_by structural fuel => fuel

/-- The `while` loop of `_parse_inline_mapping`: absorb further entries of
the compact mapping at `base + 2`, merge deeper nested mappings, and stop on
a dedent or a sequence marker.  As in the source, each entry's value is
parsed before its key. -/
def parse_inline_mapping_loop (E : Host) :
    Nat → List Line → Nat → Nat → List (Value × Value) →
    Except YamlErr (List (Value × Value) × Nat)
  | 0, _, _, _, _ => .error ⟨"fuel exhausted"⟩
  | fuel+1, lines, cursor, base, item =>
    match lines.get? cursor with
    | Option.none => .ok (item, cursor)
    | some line =>
      let stripped := strippedOf line
      if stripped == "" || strStarts stripped "#" then
        parse_inline_mapping_loop E fuel lines (cursor + 1) base item
      else if indentOf line < base + 2 then .ok (item, cursor)
      else if indentOf line > base + 2 then
        match parse_structure_loop E fuel lines cursor (base + 2) .none with
        | .error e => .error e
        | .ok (v, cursor') =>
          match v with
          | .mapping other =>
              parse_inline_mapping_loop E fuel lines cursor' base (dictUpdate item other)
          | _ => .error ⟨"Unexpected nested structure at line " ++ toString line.number⟩
      else if strStarts stripped "- " then .ok (item, cursor)
      else if !(strHas stripped ':') then
        .error ⟨"Expected mapping entry at line " ++ toString line.number⟩
      else
        let kv := splitFirst ':' stripped
        let subvalue_text := pyLStrip (strip_comment kv.2)
        if blockIndicators.contains subvalue_text then
          let r := parse_block_scalar lines cursor subvalue_text (indentOf line)
          match parse_scalar E kv.1 true with
          | .error e => .error e
          | .ok k =>
              parse_inline_mapping_loop E fuel lines r.2 base (dictInsert item k (.str r.1))
        else if subvalue_text == "" then
          match parse_structure_loop E fuel lines (cursor + 1) (indentOf line + 2) .none with
          | .error e => .error e
          | .ok (v, cursor') =>
            match parse_scalar E kv.1 true with
            | .error e => .error e
            | .ok k => parse_inline_mapping_loop E fuel lines cursor' base (dictInsert item k v)
        else
          match parse_scalar E subvalue_text false with
          | .error e => .error e
          | .ok v =>
            match parse_scalar E kv.1 true with
            | .error e => .error e
            | .ok k => parse_inline_mapping_loop E fuel lines (cursor + 1) base (dictInsert item k v)
termination_by structural fuel => fuel
end

/-- Fuel that is ample for a `_parse_structure` scan of `lines`: every loop
iteration and nested call strictly advances the line cursor, so the total
number of steps is linear in the line count. -/
def fuelFor (lines : List Line) : Nat := lines.length * 4 + 8

/-- `_parse_structure` (a fresh scan, `collection = None`). -/
def parse_structure (E : Host) (lines : List Line) (start indent : Nat) :
    Except YamlErr (Value × Nat) :=
  parse_structure_loop E (fuelFor lines) lines start indent .none

/-- `_parse_document`: an empty document is `None`; after the top-level scan
any remaining line whose stripped text is neither `""` nor `"#"` is fatal. -/
def parse_document (E : Host) (lines : List Line) : Except YamlErr Value :=
  if lines.isEmpty then .ok .null
  else
    match parse_structure E lines 0 0 with
    | .error e => .error e
    | .ok (v, index) =>
      match (lines.drop index).find? (fun l => !(strippedOf l == "" || strippedOf l == "#")) with
      | some l => .error ⟨"Unexpected content at line " ++ toString l.number⟩
      | Option.none => .ok v

/-- `safe_load_all` on a string, with the lazy generator forced to a list
(as every caller under scrutiny does). -/
def safe_load_all (E : Host) (text : String) : Except YamlErr (List Value) :=
  exceptMapM (parse_document E) (split_documents text)

/-- `safe_load` on a string: a `{`/`[`-leading input first tries
`json.loads`; the line-oriented parse follows; a `YAMLError` from it falls
back to `json.loads` once more, and the original error is re-raised only if
that also fails. -/
def safe_load (E : Host) (text : String) : Except YamlErr Value :=
  let fallback : Except YamlErr Value :=
    match safe_load_all E text with
    | .error e =>
      match E.jloads text with
      | some v => .ok v
      | Option.none => .error e
    | .ok docs =>
      match docs with
      | [] => .ok .null
      | d :: _ => .ok d
  if strStarts (pyLStrip text) "\x7b" || strStarts (pyLStrip text) "[" then
    match E.jloads text with
    | some v => .ok v
    | Option.none => fallback
  else fallback

/-- A `Host` whose members reject everything: used to instantiate closed
evaluations on inputs where the source never consults the host functions
(no quoted scalars, no flow collections, no JSON fallback, no file access,
no regex patterns). -/
def hostStub : Host :=
  { astEval := fun s => .error ⟨"ast.literal_eval: " ++ s⟩
    litEval := fun s => .error ⟨"Invalid inline YAML scalar: " ++ s⟩
    jloads := fun _ => Option.none
    fs := fun _ => Option.none
    research := fun _ _ => false }

/- ## The JSON-Schema validator (`src/jsonschema/__init__.py`) -/

/-- One breadcrumb segment of a validation path: a property name or an
array index. -/
inductive Seg where
  | s (key : String)
  | n (idx : Nat)
  deriving Repr, DecidableEq

/-- `ValidationError`: a message and the breadcrumb path. -/
structure VErr where
  message : String
  path : List Seg
  deriving Repr, DecidableEq

/-- `_format_path` (the empty-path early return coincides with joining
nothing). -/
def format_path (path : List Seg) : String :=
  "instance" ++ String.join (path.map (fun seg =>
    match seg with
    | .n i => "[" ++ toString i ++ "]"
    | .s k => "." ++ k))

/-- `f"{v}"` as interpolated into error messages.  Strings display bare as
in Python; containers are abbreviated (no theorem examines a message that
displays a container or float). -/
def pyStr : Value → String
  | .str s => s
  | .bool true => "True"
  | .bool false => "False"
  | .null => "None"
  | .int n => toString n
  | .float _ => "<float>"
  | .seq _ => "[...]"
  | .mapping _ => "{...}"

/-- The breadcrumb segment for a key appended to the path (`path + [key]`):
the source appends the key object and `_format_path` renders integers as
indices and everything else after a dot. -/
def segOfValue : Value → Seg
  | .int n => .n n.toNat
  | v => .s (pyStr v)

/-- `schema.get(k)` on a schema dict. -/
def sget (schema : List (Value × Value)) (k : String) : Option Value :=
  lookupVal schema (.str k)

/-- View a schema value as the dict the source requires at this position (a
non-dict here would crash the source with an attribute error; no theorem
reaches that case). -/
def asMapping : Value → List (Value × Value)
  | .mapping m => m
  | _ => []

/-- View a schema value as the list the source iterates at this position. -/
def asSeq : Value → List Value
  | .seq l => l
  | _ => []

/-- The numeric value of a non-boolean numeric instance, and of the numeric
schema bounds compared against it (Python compares `int`/`float`/`bool`
interchangeably; a non-numeric bound would crash the source). -/
def toRatOpt : Value → Option Rat
  | .int n => some (n : Rat)
  | .float q => some q
  | .bool b => some (if b then 1 else 0)
  | _ => none

/-- `int(x)` as applied to `minLength`-style bounds (truncation toward
zero; a non-numeric bound would crash the source). -/
def toIntTrunc : Value → Int
  | .int n => n
  | .bool b => if b then 1 else 0
  | .float q => q.num.tdiv (q.den : Int)
  | _ => 0

/-- `Path.parent` on a `/`-separated path string (enough for the sibling
references the source supports; `..`-normalisation of `Path.resolve` is
not modelled). -/
def parentDir (p : String) : String :=
  ⟨((p.data.reverse.dropWhile (· != '/')).drop 1).reverse⟩

/-- `base_dir / ref` on path strings. -/
def joinPath (dir rel : String) : String :=
  if dir = "" then rel else dir ++ "/" ++ rel

/-- `RefResolver.resolve`: a `#`-fragment returns the referrer unchanged
(the source's deliberate shortcut, commented there "Fragment identifiers
are not required for the tests"); any other reference is resolved as a path
relative to `base_uri` (relative to its parent directory when `base_uri` is
an existing file), a missing target raises `ValidationError`, and an
existing target is read and parsed with `yaml.safe_load(...) or {}`.  A
parse failure propagates (a `YAMLError` in the source, an error value
here); a truthy non-dict target would crash the caller and is modelled as
an empty schema. -/
def resolve (E : Host) (baseUri : String) (referrer : List (Value × Value))
    (ref : String) : Except VErr (List (Value × Value)) :=
  if strStarts ref "#" then .ok referrer
  else
    let baseDir := if (E.fs baseUri).isSome then parentDir baseUri else baseUri
    let target := joinPath baseDir ref
    match E.fs target with
    | Option.none => .error ⟨"Reference target not found: " ++ ref, []⟩
    | some text =>
      match safe_load E text with
      | .error e => .error ⟨e.msg, []⟩
      | .ok v => .ok (asMapping (if pyTruthy v then v else .mapping []))

/-- The names in `type_map`. -/
def typeMapNames : List String :=
  ["object", "array", "string", "integer", "number", "boolean", "null"]

/-- `isinstance(instance, type_map[t])` for one type name.  `integer` and
`number` accept booleans here because Python `bool` subclasses `int`; the
caller special-cases `integer` to exclude them, and never consults this
table for it. -/
def typeMatches (t : String) (inst : Value) : Bool :=
  match t, inst with
  | "object", .mapping _ => true
  | "array", .seq _ => true
  | "string", .str _ => true
  | "integer", .int _ => true
  | "integer", .bool _ => true
  | "number", .int _ => true
  | "number", .float _ => true
  | "number", .bool _ => true
  | "boolean", .bool _ => true
  | "null", .null => true
  | _, _ => false

/-- The option loop of `_check_type` for a list-valued `type`: try each
option, succeeding on the first success (`ct` is the recursive check,
closed over the instance and path). -/
def check_type_options (ct : Value → Except VErr Unit) :
    List Value → List Seg → String → Except VErr Unit
  | [], path, shown => .error ⟨format_path path ++ " is not any of " ++ shown, path⟩
  | o :: rest, path, shown =>
    match ct o with
    | .ok () => .ok ()
    | .error _ => check_type_options ct rest path shown

/-- `_check_type`: a list of names is a union tried in order; a name absent
from `type_map` is ignored; `integer` excludes booleans explicitly; other
names check `isinstance` against the table.  Non-string, non-list `type`
values are hashable-but-absent and fall through to the ignore case. -/
def check_type : Nat → Value → Value → List Seg → Except VErr Unit
  | 0, _, _, path => .error ⟨"recursion limit", path⟩
  | fuel+1, expected, inst, path =>
    match expected with
    | .seq opts =>
        check_type_options (fun o => check_type fuel o inst path) opts path (pyStr expected)
    | .str t =>
      if !(typeMapNames.contains t) then .ok ()
      else if t == "integer" then
        match inst with
        | .int _ => .ok ()
        | _ => .error ⟨format_path path ++ " is not of type " ++ t, path⟩
      else if typeMatches t inst then .ok ()
      else .error ⟨format_path path ++ " is not of type " ++ t, path⟩
    | _ => .ok ()
termination_by structural fuel => fuel

/-- Sequence two checks, keeping the first error (exceptions propagate past
later statements). -/
def seqE (a b : Except VErr Unit) : Except VErr Unit :=
  match a with
  | .error e => .error e
  | .ok () => b

/-- The `required` loop of `_validate_object`. -/
def check_required : List Value → List (Value × Value) → List Seg → Except VErr Unit
  | [], _, _ => .ok ()
  | k :: rest, inst, path =>
    if (lookupVal inst k).isSome then check_required rest inst path
    else
      .error ⟨format_path (path ++ [segOfValue k]) ++ " is a required property",
              path ++ [segOfValue k]⟩

/-- The `properties` loop of `_validate_object` (`vs` is the recursive
schema check). -/
def validate_props (vs : List (Value × Value) → Value → List Seg → Except VErr Unit) :
    List (Value × Value) → List (Value × Value) → List Seg → Except VErr Unit
  | [], _, _ => .ok ()
  | (pk, psub) :: rest, inst, path =>
    match lookupVal inst pk with
    | some pv =>
      match vs (asMapping (pyOrEmpty psub)) pv (path ++ [segOfValue pk]) with
      | .error e => .error e
      | .ok () => validate_props vs rest inst path
    | Option.none => validate_props vs rest inst path

/-- The `additionalProperties: false` loop of `_validate_object`: the first
instance key absent from `properties` is fatal. -/
def check_no_additional (props : List (Value × Value)) :
    List (Value × Value) → List Seg → Except VErr Unit
  | [], _ => .ok ()
  | (k, _) :: rest, path =>
    if (lookupVal props k).isSome then check_no_additional props rest path
    else .error ⟨"Unexpected property " ++ pyStr k ++ " at " ++ format_path path,
                 path ++ [segOfValue k]⟩

/-- The `additionalProperties: <schema>` loop of `_validate_object`: each
instance key absent from `properties` has its value validated against the
`additionalProperties` schema. -/
def validate_additional (vs : List (Value × Value) → Value → List Seg → Except VErr Unit)
    (adds : List (Value × Value)) (props : List (Value × Value)) :
    List (Value × Value) → List Seg → Except VErr Unit
  | [], _ => .ok ()
  | (k, v) :: rest, path =>
    if (lookupVal props k).isSome then validate_additional vs adds props rest path
    else
      match vs adds v (path ++ [segOfValue k]) with
      | .error e => .error e
      | .ok () => validate_additional vs adds props rest path

/-- `_validate_object`: `required`, then declared `properties`, then the
`additionalProperties` policy — `False` forbids undeclared keys only when
`properties` is non-empty (the source guards with `and properties`); a
schema value validates undeclared keys against it; anything else checks
nothing. -/
def validate_object (vs : List (Value × Value) → Value → List Seg → Except VErr Unit)
    (schema : List (Value × Value)) (inst : List (Value × Value))
    (path : List Seg) : Except VErr Unit :=
  let required := asSeq ((sget schema "required").getD (.seq []))
  seqE (check_required required inst path) <|
    let properties := asMapping ((sget schema "properties").getD (.mapping []))
    seqE (validate_props vs properties inst path) <|
      match sget schema "additionalProperties" with
      | some (.bool false) =>
          if properties.isEmpty then .ok () else check_no_additional properties inst path
      | some (.mapping adds) => validate_additional vs adds properties inst path
      | _ => .ok ()

/-- The positional (`items` as a list) loop of `_validate_array`: `zip`
stops at the shorter of the two lists, so excess elements are unchecked. -/
def validate_items_tuple (vs : List (Value × Value) → Value → List Seg → Except VErr Unit)
    (path : List Seg) : Nat → List Value → List Value → Except VErr Unit
  | _, [], _ => .ok ()
  | _, _, [] => .ok ()
  | idx, e :: es, sub :: subs =>
    match vs (asMapping (pyOrEmpty sub)) e (path ++ [.n idx]) with
    | .error e' => .error e'
    | .ok () => validate_items_tuple vs path (idx + 1) es subs

/-- The uniform (`items` as a single schema) loop of `_validate_array`. -/
def validate_items_each (vs : List (Value × Value) → Value → List Seg → Except VErr Unit)
    (im : List (Value × Value)) (path : List Seg) : Nat → List Value → Except VErr Unit
  | _, [] => .ok ()
  | idx, e :: es =>
    match vs im e (path ++ [.n idx]) with
    | .error e' => .error e'
    | .ok () => validate_items_each vs im path (idx + 1) es

/-- `_validate_array`: `minItems`/`maxItems`, then `items` as a positional
tuple or a uniform schema. -/
def validate_array (vs : List (Value × Value) → Value → List Seg → Except VErr Unit)
    (schema : List (Value × Value)) (inst : List Value) (path : List Seg) :
    Except VErr Unit :=
  seqE (match sget schema "minItems" with
        | some v =>
          if (inst.length : Int) < toIntTrunc v then
            .error ⟨format_path path ++ " has fewer than " ++ pyStr v ++ " items", path⟩
          else .ok ()
        | Option.none => .ok ()) <|
  seqE (match sget schema "maxItems" with
        | some v =>
          if (inst.length : Int) > toIntTrunc v then
            .error ⟨format_path path ++ " has more than " ++ pyStr v ++ " items", path⟩
          else .ok ()
        | Option.none => .ok ()) <|
  match sget schema "items" with
  | some (.seq items) => validate_items_tuple vs path 0 inst items
  | some (.mapping im) => validate_items_each vs im path 0 inst
  | _ => .ok ()

/-- `_validate_composition`: evaluate every sub-schema independently (its
own failure swallowed into a boolean), then apply the keyword's aggregate
rule — `allOf` all, `anyOf` at least one, `oneOf` exactly one. -/
def validate_composition (vs : List (Value × Value) → Value → List Seg → Except VErr Unit)
    (kw : String) (subs : List Value) (inst : Value) (path : List Seg) :
    Except VErr Unit :=
  let results := subs.map (fun sub => isOkE (vs (asMapping (pyOrEmpty sub)) inst path))
  if kw == "allOf" && !(results.all (· == true)) then
    .error ⟨format_path path ++ " failed allOf", path⟩
  else if kw == "anyOf" && !(results.any (· == true)) then
    .error ⟨format_path path ++ " failed anyOf", path⟩
  else if kw == "oneOf" && !(results.count true == 1) then
    .error ⟨format_path path ++ " failed oneOf", path⟩
  else .ok ()

/-- One schema bound against a numeric instance value (the four
`minimum`-family checks of `_validate_schema`). -/
def boundCheck (schema : List (Value × Value)) (key : String) (bad : Rat → Rat → Bool)
    (msg : String) (iv : Rat) (path : List Seg) : Except VErr Unit :=
  match sget schema key with
  | some b =>
    match toRatOpt b with
    | some bv => if bad iv bv then .error ⟨format_path path ++ msg ++ pyStr b, path⟩ else .ok ()
    | Option.none => .ok ()
  | Option.none => .ok ()

/-- `_validate_schema`, the recursive heart of the validator: `$ref` is
resolved and replaces the whole node (no sibling keyword runs); otherwise
`type`, `enum`, `const`, `pattern`, string-length, numeric-bound, object,
array and composition checks run in source order, the first failure
propagating.  Fuel bounds the recursion depth; every entry point supplies
more than any schema under scrutiny nests. -/
def validate_schema (E : Host) (rbase : String) (rref : List (Value × Value)) :
    Nat → List (Value × Value) → Value → List Seg → Except VErr Unit
  | 0, _, _, path => .error ⟨"recursion limit", path⟩
  | fuel+1, schema, inst, path =>
    match sget schema "$ref" with
    | some refv =>
      (match refv with
       | .str r =>
         match resolve E rbase rref r with
         | .error e => .error e
         | .ok m => validate_schema E rbase rref fuel m inst path
       | _ => .error ⟨"invalid $ref", path⟩)
    | Option.none =>
      seqE (match sget schema "type" with
            | some t => check_type fuel t inst path
            | Option.none => .ok ()) <|
      seqE (match sget schema "enum" with
            | some ev =>
              if (asSeq ev).any (fun x => valueBeq x inst) then .ok ()
              else .error ⟨format_path path ++ " is not one of " ++ pyStr ev, path⟩
            | Option.none => .ok ()) <|
      seqE (match sget schema "const" with
            | some cv =>
              if valueBeq inst cv then .ok ()
              else .error ⟨format_path path ++ " must equal " ++ pyStr cv, path⟩
            | Option.none => .ok ()) <|
      seqE (match sget schema "pattern", inst with
            | some (.str p), .str s =>
              if E.research p s then .ok ()
              else .error ⟨format_path path ++ " does not match pattern " ++ p, path⟩
            | _, _ => .ok ()) <|
      seqE (match inst with
            | .str s =>
              seqE (match sget schema "minLength" with
                    | some v =>
                      if (s.length : Int) < toIntTrunc v then
                        .error ⟨format_path path ++ " is shorter than " ++ pyStr v, path⟩
                      else .ok ()
                    | Option.none => .ok ()) <|
              (match sget schema "maxLength" with
               | some v =>
                 if (s.length : Int) > toIntTrunc v then
                   .error ⟨format_path path ++ " is longer than " ++ pyStr v, path⟩
                 else .ok ()
               | Option.none => .ok ())
            | _ => .ok ()) <|
      seqE (match toRatOpt inst, inst with
            | some iv, .int _ | some iv, .float _ =>
              seqE (boundCheck schema "minimum" (fun i b => decide (i < b))
                      " is less than " iv path) <|
              seqE (boundCheck schema "maximum" (fun i b => decide (i > b))
                      " is greater than " iv path) <|
              seqE (boundCheck schema "exclusiveMinimum" (fun i b => decide (i ≤ b))
                      " must be greater than " iv path) <|
              (boundCheck schema "exclusiveMaximum" (fun i b => decide (i ≥ b))
                      " must be less than " iv path)
            | _, _ => .ok ()) <|
      seqE (match inst with
            | .mapping m =>
              validate_object (fun sch i p => validate_schema E rbase rref fuel sch i p)
                schema m path
            | _ => .ok ()) <|
      seqE (match inst with
            | .seq l =>
              validate_array (fun sch i p => validate_schema E rbase rref fuel sch i p)
                schema l path
            | _ => .ok ()) <|
      seqE (match sget schema "allOf" with
            | some subs =>
              validate_composition (fun sch i p => validate_schema E rbase rref fuel sch i p)
                "allOf" (asSeq subs) inst path
            | Option.none => .ok ()) <|
      seqE (match sget schema "anyOf" with
            | some subs =>
              validate_composition (fun sch i p => validate_schema E rbase rref fuel sch i p)
                "anyOf" (asSeq subs) inst path
            | Option.none => .ok ()) <|
      (match sget schema "oneOf" with
       | some subs =>
         validate_composition (fun sch i p => validate_schema E rbase rref fuel sch i p)
           "oneOf" (asSeq subs) inst path
       | Option.none => .ok ())
termination_by structural fuel => fuel

/-- A `Host` like `hostStub` except that `json.loads` accepts the single
input `"42"` as the integer `42` (the bare-scalar JSON document used to
exercise `safe_load`'s fallback). -/
def host42 : Host :=
  { hostStub with jloads := fun s => if s == "42" then some (.int 42) else Option.none }

/-- `Draft202012Validator(schema).validate(instance)` with the default
resolver (the working-directory base location is modelled as the empty
string; the referrer is `self.schema = schema or {}`). -/
def validate (E : Host) (schema : Value) (inst : Value) : Except VErr Unit :=
  validate_schema E "" (asMapping (pyOrEmpty schema)) 64 (asMapping (pyOrEmpty schema)) inst []

/- ## Supporting lemmas for the scalar-coercion claims -/

theorem lowerChar_fix_digit {c : Char} (h : isDigitChar c = true) : lowerChar c = c := by
  simp only [isDigitChar, Bool.or_eq_true, beq_iff_eq, or_assoc] at h
  rcases h with rfl | rfl | rfl | rfl | rfl | rfl | rfl | rfl | rfl | rfl <;> rfl

theorem pyLower_data (v : String) : (pyLower v).data = v.data.map lowerChar := rfl

theorem head_lower {v : String} {c : Char} {cs : List Char}
    (h : v.data.map lowerChar = c :: cs) :
    ∃ c' cs', v.data = c' :: cs' ∧ lowerChar c' = c := by
  cases hv : v.data with
  | nil => rw [hv] at h; simp at h
  | cons a as =>
    rw [hv] at h
    simp only [List.map_cons, List.cons.injEq] at h
    exact ⟨a, as, rfl, h.1⟩

theorem ne_empty_of_data {v : String} {c : Char} {cs : List Char}
    (hv : v.data = c :: cs) : v ≠ "" := by
  intro he
  rw [he] at hv
  exact List.noConfusion hv

theorem isQuoteLead_false_of_head {v : String} {c : Char} {cs : List Char}
    (hv : v.data = c :: cs) (h1 : c ≠ '"') (h2 : c ≠ '\'') : isQuoteLead v = false := by
  simp [isQuoteLead, hv, h1, h2]

theorem intShaped_head {v : String} (h : isIntShaped v = true) :
    ∃ c cs, v.data = c :: cs ∧ (c = '+' ∨ c = '-' ∨ isDigitChar c = true) := by
  unfold isIntShaped at h
  cases hv : v.data with
  | nil => rw [hv] at h; simp at h
  | cons c cs =>
    rw [hv] at h
    replace h : (if c == '+' || c == '-' then !cs.isEmpty && allDigits cs
                 else isDigitChar c && allDigits cs) = true := h
    by_cases hc : (c == '+' || c == '-') = true
    · refine ⟨c, cs, rfl, ?_⟩
      rcases (by simpa using hc : c = '+' ∨ c = '-') with h' | h'
      · exact Or.inl h'
      · exact Or.inr (Or.inl h')
    · rw [if_neg hc] at h
      exact ⟨c, cs, rfl, Or.inr (Or.inr (Bool.and_eq_true_iff.mp h).1)⟩

theorem floatShaped_head {v : String} (h : isFloatShaped v = true) :
    ∃ c cs, v.data = c :: cs ∧
      (c = '+' ∨ c = '-' ∨ isDigitChar c = true ∨ c = '.') := by
  unfold isFloatShaped at h
  cases hv : v.data with
  | nil => rw [hv] at h; simp [splitSign] at h
  | cons c cs =>
    rw [hv] at h
    by_cases hc : (c == '+' || c == '-') = true
    · refine ⟨c, cs, rfl, ?_⟩
      rcases (by simpa using hc : c = '+' ∨ c = '-') with h' | h'
      · exact Or.inl h'
      · exact Or.inr (Or.inl h')
    · by_cases hd : isDigitChar c = true
      · exact ⟨c, cs, rfl, Or.inr (Or.inr (Or.inl hd))⟩
      · refine ⟨c, cs, rfl, Or.inr (Or.inr (Or.inr ?_))⟩
        have hs : splitSign (c :: cs) = c :: cs := by
          simp [splitSign, hc]
        rw [hs, List.takeWhile_cons, if_neg (by simpa using hd)] at h
        simp only [List.length_nil, List.drop_zero] at h
        by_cases he : c = '.'
        · exact he
        · exfalso
          revert h
          split
          · next heq =>
              intro _
              injection heq with h1 _
              exact he h1
          · simp

theorem takeWhile_all_digits {l : List Char} (h : allDigits l = true) :
    l.takeWhile isDigitChar = l := by
  induction l with
  | nil => rfl
  | cons c cs ih =>
    simp only [allDigits, List.all_cons, Bool.and_eq_true] at h
    rw [List.takeWhile_cons, if_pos h.1, ih (by simp [allDigits, h.2])]

theorem intShaped_all_digits {v : String} (h : isIntShaped v = true) :
    allDigits (splitSign v.data) = true := by
  unfold isIntShaped at h
  cases hv : v.data with
  | nil => rw [hv] at h; simp at h
  | cons c cs =>
    rw [hv] at h
    replace h : (if c == '+' || c == '-' then !cs.isEmpty && allDigits cs
                 else isDigitChar c && allDigits cs) = true := h
    by_cases hc : (c == '+' || c == '-') = true
    · rw [if_pos hc] at h
      simp [splitSign, hc]
      have h2 := (Bool.and_eq_true_iff.mp h).2
      simp [allDigits] at h2
      simpa [allDigits] using h2
    · rw [if_neg hc] at h
      have := Bool.and_eq_true_iff.mp h
      simp [splitSign, hc, allDigits, this.1]
      have h2 := this.2
      simp [allDigits] at h2
      exact h2

theorem isIntShaped_false_of_float {v : String} (h : isFloatShaped v = true) :
    isIntShaped v = false := by
  rw [Bool.eq_false_iff]
  intro hi
  have hall := intShaped_all_digits hi
  unfold isFloatShaped at h
  rw [takeWhile_all_digits hall, List.drop_length] at h
  exact absurd h (by simp)

theorem not_keyword_of_plain_head {v : String} {c : Char} {cs : List Char}
    (hv : v.data = c :: cs)
    (hc : c = '+' ∨ c = '-' ∨ isDigitChar c = true ∨ c = '.') :
    lookupStr boolKeywordMap (pyLower v) = Option.none ∧
    nullValues.contains (pyLower v) = false ∧
    isQuoteLead v = false := by
  have hl : lowerChar c = c := by
    rcases hc with rfl | rfl | hd | rfl
    · rfl
    · rfl
    · exact lowerChar_fix_digit hd
    · rfl
  have hdata : (pyLower v).data = c :: cs.map lowerChar := by
    rw [pyLower_data, hv, List.map_cons, hl]
  have hcne : c ≠ 't' ∧ c ≠ 'f' ∧ c ≠ 'y' ∧ c ≠ 'n' ∧ c ≠ 'o' ∧
      c ≠ '~' ∧ c ≠ '"' ∧ c ≠ '\'' := by
    rcases hc with rfl | rfl | hd | rfl
    · exact ⟨by decide, by decide, by decide, by decide, by decide, by decide,
             by decide, by decide⟩
    · exact ⟨by decide, by decide, by decide, by decide, by decide, by decide,
             by decide, by decide⟩
    · refine ⟨?_, ?_, ?_, ?_, ?_, ?_, ?_, ?_⟩ <;>
        (intro he; rw [he] at hd; exact absurd hd (by decide))
    · exact ⟨by decide, by decide, by decide, by decide, by decide, by decide,
             by decide, by decide⟩
  have key_ne : ∀ (w : String) (d : Char) (ws : List Char),
      w.data = d :: ws → c ≠ d → pyLower v ≠ w := by
    intro w d ws hw hne h
    have hd := congrArg String.data h
    rw [hdata, hw] at hd
    injection hd with h1 _
    exact hne h1
  have hempty : pyLower v ≠ "" := by
    intro h
    have hd := congrArg String.data h
    rw [hdata] at hd
    exact List.noConfusion hd
  obtain ⟨n1, n2, n3, n4, n5, n6, n7, n8⟩ := hcne
  refine ⟨?_, ?_, isQuoteLead_false_of_head hv n7 n8⟩
  · have g1 := key_ne "true" 't' _ rfl n1
    have g2 := key_ne "false" 'f' _ rfl n2
    have g3 := key_ne "yes" 'y' _ rfl n3
    have g4 := key_ne "no" 'n' _ rfl n4
    have g5 := key_ne "on" 'o' _ rfl n5
    have g6 := key_ne "off" 'o' _ rfl n5
    simp [lookupStr, boolKeywordMap, Ne.symm g1, Ne.symm g2, Ne.symm g3,
          Ne.symm g4, Ne.symm g5, Ne.symm g6]
  · have g7 := key_ne "null" 'n' _ rfl n4
    have g8 := key_ne "~" '~' _ rfl n6
    simp [nullValues, g7, g8, hempty]

instance {ε α : Type} [DecidableEq ε] [DecidableEq α] : DecidableEq (Except ε α)
  | .ok a, .ok b =>
    if h : a = b then .isTrue (by rw [h])
    else .isFalse (fun he => h (Except.ok.inj he))
  | .error a, .error b =>
    if h : a = b then .isTrue (by rw [h])
    else .isFalse (fun he => h (Except.error.inj he))
  | .ok _, .error _ => .isFalse (fun he => Except.noConfusion he)
  | .error _, .ok _ => .isFalse (fun he => Except.noConfusion he)

/- ## The claims -/

/-- C1, counterexample.  The claim's coercion table lists `Null` only for
`"~"`, `"null"` and the empty string (case-insensitivity is claimed for the
booleans alone) and assigns `String` to every other unquoted input; but
`_parse_scalar` lowercases before the null-keyword test, so the unquoted
scalar `"NULL"` is coerced to `Null` where the table as stated requires the
string `"NULL"`. -/
theorem c1_counterexample_upper_null :
    parse_scalar hostStub "NULL" false = .ok .null ∧
    (Except.ok Value.null ≠ (Except.ok (Value.str "NULL") : Except YamlErr Value)) :=
  ⟨rfl, by decide⟩

/-- C1 (amended): the scalar-coercion table of `_parse_scalar` in value
position, with the two qualifications the code forces: the null keywords
are matched case-insensitively exactly like the booleans, and inputs
delimited like flow collections (`[`…`]` or `{`…`}`) are exempt from the
final String row (they are parsed as inline collections instead).  Rows:
lowered `true`/`yes`/`on` → `Bool true`; lowered `false`/`no`/`off` →
`Bool false`; lowered `null`/`~`/empty → `Null`; sign-plus-digits text →
the corresponding `Int`; the decimal-point float pattern → the
corresponding `Float`; and every other unquoted, non-flow-delimited input
→ the `String` equal to the stripped text. -/
theorem c1_scalar_coercion_table :
    (∀ (E : Host) (raw : String),
        pyLower (pyStrip raw) ∈ (["true", "yes", "on"] : List String) →
        parse_scalar E raw false = .ok (.bool true)) ∧
    (∀ (E : Host) (raw : String),
        pyLower (pyStrip raw) ∈ (["false", "no", "off"] : List String) →
        parse_scalar E raw false = .ok (.bool false)) ∧
    (∀ (E : Host) (raw : String),
        pyLower (pyStrip raw) ∈ (["null", "~", ""] : List String) →
        parse_scalar E raw false = .ok .null) ∧
    (∀ (E : Host) (raw : String), isIntShaped (pyStrip raw) = true →
        parse_scalar E raw false = .ok (.int (parseIntLit (pyStrip raw)))) ∧
    (∀ (E : Host) (raw : String), isFloatShaped (pyStrip raw) = true →
        parse_scalar E raw false = .ok (.float (parseFloatLit (pyStrip raw)))) ∧
    (∀ (E : Host) (raw : String),
        pyStrip raw ≠ "" →
        isQuoteLead (pyStrip raw) = false →
        lookupStr boolKeywordMap (pyLower (pyStrip raw)) = Option.none →
        nullValues.contains (pyLower (pyStrip raw)) = false →
        isIntShaped (pyStrip raw) = false →
        isFloatShaped (pyStrip raw) = false →
        (strStarts (pyStrip raw) "[" && strEnds (pyStrip raw) "]") = false →
        (strStarts (pyStrip raw) "\x7b" && strEnds (pyStrip raw) "\x7d") = false →
        parse_scalar E raw false = .ok (.str (pyStrip raw))) := by
  have quote_facts : ∀ {v : String} {c : Char} {cs : List Char} {d : Char},
      v.data = c :: cs → lowerChar c = d → d ≠ '"' → d ≠ '\'' →
      isQuoteLead v = false := by
    intro v c cs d hv hc hd1 hd2
    refine isQuoteLead_false_of_head hv ?_ ?_
    · intro he; rw [he] at hc; exact hd1 hc.symm
    · intro he; rw [he] at hc; exact hd2 hc.symm
  refine ⟨?_, ?_, ?_, ?_, ?_, ?_⟩
  · intro E raw h
    simp only [List.mem_cons, List.mem_singleton, List.not_mem_nil, or_false] at h
    rcases h with h | h | h <;>
    · obtain ⟨c, cs, hv, hc⟩ := head_lower (congrArg String.data h)
      have hne := ne_empty_of_data hv
      have hq := quote_facts hv hc (by decide) (by decide)
      simp only [parse_scalar, parse_scalarF]
      simp [hne, hq, h, lookupStr, boolKeywordMap]
  · intro E raw h
    simp only [List.mem_cons, List.mem_singleton, List.not_mem_nil, or_false] at h
    rcases h with h | h | h <;>
    · obtain ⟨c, cs, hv, hc⟩ := head_lower (congrArg String.data h)
      have hne := ne_empty_of_data hv
      have hq := quote_facts hv hc (by decide) (by decide)
      simp only [parse_scalar, parse_scalarF]
      simp [hne, hq, h, lookupStr, boolKeywordMap]
  · intro E raw h
    simp only [List.mem_cons, List.mem_singleton, List.not_mem_nil, or_false] at h
    rcases h with h | h | h
    · obtain ⟨c, cs, hv, hc⟩ := head_lower (congrArg String.data h)
      have hne := ne_empty_of_data hv
      have hq := quote_facts hv hc (by decide) (by decide)
      simp only [parse_scalar, parse_scalarF]
      simp [hne, hq, h, lookupStr, boolKeywordMap, nullValues]
    · obtain ⟨c, cs, hv, hc⟩ := head_lower (congrArg String.data h)
      have hne := ne_empty_of_data hv
      have hq := quote_facts hv hc (by decide) (by decide)
      simp only [parse_scalar, parse_scalarF]
      simp [hne, hq, h, lookupStr, boolKeywordMap, nullValues]
    · have hv : pyStrip raw = "" := by
        have hd := congrArg String.data h
        cases he : (pyStrip raw).data with
        | nil => exact congrArg String.mk he
        | cons a as => rw [pyLower_data, he] at hd; exact absurd hd (by simp)
      simp only [parse_scalar, parse_scalarF]
      simp [hv]
  · intro E raw h
    obtain ⟨c, cs, hv, hc⟩ := intShaped_head h
    obtain ⟨hb, hn, hq⟩ := not_keyword_of_plain_head hv
      (by rcases hc with h' | h' | h'
          exacts [Or.inl h', Or.inr (Or.inl h'), Or.inr (Or.inr (Or.inl h'))])
    have hne := ne_empty_of_data hv
    have hn' : pyLower (pyStrip raw) ∉ nullValues := by simpa using hn
    simp only [parse_scalar, parse_scalarF]
    simp [hne, hq, hb, hn', h]
  · intro E raw h
    obtain ⟨c, cs, hv, hc⟩ := floatShaped_head h
    obtain ⟨hb, hn, hq⟩ := not_keyword_of_plain_head hv hc
    have hne := ne_empty_of_data hv
    have hni := isIntShaped_false_of_float h
    have hn' : pyLower (pyStrip raw) ∉ nullValues := by simpa using hn
    simp only [parse_scalar, parse_scalarF]
    simp [hne, hq, hb, hn', hni, h]
  · intro E raw h1 h2 h3 h4 h5 h6 h7 h8
    have h4' : pyLower (pyStrip raw) ∉ nullValues := by simpa using h4
    simp only [parse_scalar, parse_scalarF]
    simp [h1, h2, h3, h4', h5, h6, h7, h8]

/-- C1, witness: the amended table applied at one concrete input per row. -/
theorem c1_scalar_coercion_table_witness :
    parse_scalar hostStub "TRUE" false = .ok (.bool true) ∧
    parse_scalar hostStub "Off" false = .ok (.bool false) ∧
    parse_scalar hostStub "~" false = .ok .null ∧
    parse_scalar hostStub "42" false = .ok (.int 42) ∧
    parse_scalar hostStub "4.5" false = .ok (.float (mkRat 9 2)) ∧
    parse_scalar hostStub "hello world" false = .ok (.str "hello world") := by
  have t := c1_scalar_coercion_table
  exact ⟨t.1 hostStub "TRUE" (by decide),
         t.2.1 hostStub "Off" (by decide),
         t.2.2.1 hostStub "~" (by decide),
         (t.2.2.2.1 hostStub "42" (by decide)).trans (by decide),
         (t.2.2.2.2.1 hostStub "4.5" (by decide)).trans (by decide),
         (t.2.2.2.2.2 hostStub "hello world" (by decide) (by decide) (by decide)
            (by decide) (by decide) (by decide) (by decide) (by decide)).trans (by decide)⟩

/-- C2, counterexample.  The claim says the `-` suffix strips all trailing
newlines from the result; but a whitespace-only body line deeper than the
key is captured and processed to an empty line, and `|-` returns the
captured text unchanged, so `"text: |-\n  a\n   "` (three trailing spaces
on the last line) parses to `"a\n"` — a `|-` result that still ends in a
newline. -/
theorem c2_counterexample_minus_keeps_newline :
    safe_load hostStub "text: |-\n  a\n   " = .ok (.mapping [(.str "text", .str "a\n")]) ∧
    strEnds "a\n" "\n" = true ∧ ("a\n" : String) ≠ "a" :=
  ⟨rfl, rfl, by decide⟩

/-- C2 (amended): chomping in `_parse_block_scalar` relates the indicator
variants as the code does — a bare `|`/`>` appends exactly one newline to
the captured body, the `-` suffix returns the captured body unchanged
(stripping nothing; the body ends without a newline except when trailing
whitespace-only body lines were captured), and the `+` suffix behaves
exactly like the default — and on the three spec examples yields
`"a\nb\n"`, `"a\nb"` and `"a b"`. -/
theorem c2_block_scalar_chomping :
    (∀ (lines : List Line) (i b : Nat),
        parse_block_scalar lines i "|" b
          = ((parse_block_scalar lines i "|-" b).1 ++ "\n",
             (parse_block_scalar lines i "|-" b).2) ∧
        parse_block_scalar lines i ">" b
          = ((parse_block_scalar lines i ">-" b).1 ++ "\n",
             (parse_block_scalar lines i ">-" b).2) ∧
        parse_block_scalar lines i "|+" b = parse_block_scalar lines i "|" b ∧
        parse_block_scalar lines i ">+" b = parse_block_scalar lines i ">" b) ∧
    safe_load hostStub "text: |\n  a\n  b\n" = .ok (.mapping [(.str "text", .str "a\nb\n")]) ∧
    safe_load hostStub "text: |-\n  a\n  b\n" = .ok (.mapping [(.str "text", .str "a\nb")]) ∧
    safe_load hostStub "text: >-\n  a\n  b\n" = .ok (.mapping [(.str "text", .str "a b")]) := by
  refine ⟨?_, rfl, rfl, rfl⟩
  intro lines i b
  refine ⟨?_, ?_, ?_, ?_⟩ <;>
  · unfold parse_block_scalar
    cases h : (lines.drop (i + 1)).takeWhile (fun l => !(blockBreak l b)) with
    | nil => simp [h]; decide
    | cons x xs => simp [h, strStarts, strEnds, listStarts]

/-- C3: comments begin at a `#` not inside a quoted scalar and are stripped
— true after a closed single-quoted scalar, but the code's double-quote
branch executes `in_double = not in_single` instead of
`not in_double`, so the double-quote state is latched on at the first `"`
and never cleared: a comment after a closed double-quoted scalar is kept.
This theorem evaluates the embedded `_strip_comment` at the two inputs,
exhibiting the asymmetry the claim rules out. -/
theorem c3_strip_comment_double_quote_bug :
    strip_comment "'ok' # c" = "'ok'" ∧
    strip_comment "\"bad\" # c" = "\"bad\" # c" :=
  ⟨rfl, rfl⟩

theorem exceptMapM_length {ε α β : Type} (f : α → Except ε β) :
    ∀ (l : List α) (res : List β), exceptMapM f l = .ok res → res.length = l.length := by
  intro l
  induction l with
  | nil =>
    intro res h
    simp only [exceptMapM] at h
    injection h with h
    rw [← h]
    rfl
  | cons a as ih =>
    intro res h
    simp only [exceptMapM] at h
    cases hf : f a with
    | error e => rw [hf] at h; exact absurd h (by simp)
    | ok b =>
      rw [hf] at h
      cases hm : exceptMapM f as with
      | error e => rw [hm] at h; exact absurd h (by simp)
      | ok bs =>
        rw [hm] at h
        injection h with h
        rw [← h]
        simp [ih bs hm]

/-- C5: `safe_load_all` yields exactly one `Value` per
`---`/`...`-delimited section, in file order — its successful result has
one element per document of `_split_documents` — the two-document example
yields `{a: 1}` then `{b: 2}`, and the empty input yields a single `Null`
document, not zero documents. -/
theorem c5_parse_all_one_value_per_section :
    (∀ (E : Host) (text : String) (vs : List Value),
        safe_load_all E text = .ok vs → vs.length = (split_documents text).length) ∧
    safe_load_all hostStub "---\na: 1\n---\nb: 2\n"
      = .ok [.mapping [(.str "a", .int 1)], .mapping [(.str "b", .int 2)]] ∧
    safe_load_all hostStub "" = .ok [.null] :=
  ⟨fun E text vs h => exceptMapM_length (parse_document E) (split_documents text) vs h,
   rfl, rfl⟩

/-- C5, witness: the general per-section count applied to the concrete
two-document input. -/
theorem c5_parse_all_one_value_per_section_witness :
    ([Value.mapping [(.str "a", .int 1)], Value.mapping [(.str "b", .int 2)]].length)
      = (split_documents "---\na: 1\n---\nb: 2\n").length :=
  c5_parse_all_one_value_per_section.1 hostStub "---\na: 1\n---\nb: 2\n" _
    c5_parse_all_one_value_per_section.2.1

/-- C9: duplicate keys at one mapping level resolve to the value of the
last occurrence (last write wins): the dict-update operation every mapping
entry goes through makes a later insert win on lookup, and both the block
mapping path and the compact inline-mapping path return the last value on
concrete duplicate-key documents. -/
theorem c9_duplicate_keys_last_write_wins :
    (∀ (m : List (Value × Value)) (k v : Value),
        lookupVal (dictInsert m k v) k = some v) ∧
    safe_load_all hostStub "a: 1\na: 2" = .ok [.mapping [(.str "a", .int 2)]] ∧
    safe_load_all hostStub "- a: 1\n  a: 2" = .ok [.seq [.mapping [(.str "a", .int 2)]]] := by
  refine ⟨?_, rfl, rfl⟩
  intro m k v
  induction m with
  | nil => simp [dictInsert, lookupVal, valueBeq_refl]
  | cons kv rest ih =>
    obtain ⟨k', v'⟩ := kv
    by_cases h : valueBeq k' k = true
    · simp [dictInsert, h, lookupVal]
    · simp only [dictInsert, if_neg h, lookupVal]
      exact ih

/-- C10: when the line-oriented parse inside `safe_load` raises a
`YAMLError`, `safe_load` attempts `json.loads` on the entire text
regardless of its first character, returns that value on success, and
re-raises the original error only when the JSON parse also fails; the bare
top-level scalar `"42"`, rejected by the line-oriented parser, is such an
input. -/
theorem c10_safe_load_json_fallback :
    (∀ (E : Host) (text : String) (e : YamlErr),
        safe_load_all E text = .error e →
        safe_load E text = (match E.jloads text with
                            | some v => .ok v
                            | Option.none => .error e)) ∧
    isErr (safe_load_all hostStub "42") = true := by
  refine ⟨?_, rfl⟩
  intro E text e h
  unfold safe_load
  rw [h]
  cases hj : E.jloads text <;> simp [hj]

/-- C10, witness: applied to `"42"` with a host whose `json.loads` accepts
it, `safe_load` returns `42` even though the line-oriented parse fails. -/
theorem c10_safe_load_json_fallback_witness :
    safe_load host42 "42" = .ok (.int 42) :=
  (c10_safe_load_json_fallback.1 host42 "42"
      ⟨"Expected mapping entry at line 1"⟩ rfl).trans rfl

/-- C4: within one `_parse_structure` scan, once the collection has begun
as a mapping, a line bearing the sequence marker `- ` at an indent the scan
still owns raises `FormatError`; once it has begun as a sequence, a
`key: value` line there raises `FormatError`; and two concrete mixed
documents fail end to end — the parser never coerces one collection kind
into the other. -/
theorem c4_mixed_collection_markers_raise :
    (∀ (E : Host) (fuel : Nat) (lines : List Line) (index indent : Nat)
        (line : Line) (m : List (Value × Value)) (xs : List Value),
        lines.get? index = some line →
        strippedOf line ≠ "" →
        strStarts (strippedOf line) "#" = false →
        indent ≤ indentOf line →
        ((strStarts (strippedOf line) "- " = true →
            isErr (parse_structure_loop E (fuel + 1) lines index indent (.map m)) = true) ∧
         (strStarts (strippedOf line) "- " = false →
          strHas (strippedOf line) ':' = true →
            isErr (parse_structure_loop E (fuel + 1) lines index indent (.seq xs)) = true))) ∧
    isErr (safe_load hostStub "a: 1\n- b") = true ∧
    isErr (safe_load hostStub "- a\nb: 1") = true := by
  refine ⟨?_, rfl, rfl⟩
  intro E fuel lines index indent line m xs hget h2 h3 h4
  have h5 : ¬(indentOf line < indent) := not_lt.mpr h4
  constructor
  · intro hdash
    simp only [parse_structure_loop]
    rw [hget]
    simp [h2, h3, h5, hdash, isErr]
  · intro hdash hcolon
    simp only [parse_structure_loop]
    rw [hget]
    simp [h2, h3, h5, hdash, hcolon, isErr]

/-- C4, witness: the scan-level statement applied at the offending line of
each concrete mixed document. -/
theorem c4_mixed_collection_markers_raise_witness :
    isErr (parse_structure_loop hostStub 5 [⟨"a: 1", 1⟩, ⟨"- b", 2⟩] 1 0
        (.map [(.str "a", .int 1)])) = true ∧
    isErr (parse_structure_loop hostStub 5 [⟨"- a", 1⟩, ⟨"b: 1", 2⟩] 1 0
        (.seq [.str "a"])) = true :=
  ⟨(c4_mixed_collection_markers_raise.1 hostStub 4 [⟨"a: 1", 1⟩, ⟨"- b", 2⟩] 1 0
      ⟨"- b", 2⟩ [(.str "a", .int 1)] [] rfl (by decide) (by decide) (by decide)).1
      (by decide),
   (c4_mixed_collection_markers_raise.1 hostStub 4 [⟨"- a", 1⟩, ⟨"b: 1", 2⟩] 1 0
      ⟨"b: 1", 2⟩ [] [.str "a"] rfl (by decide) (by decide) (by decide)).2
      (by decide) (by decide)⟩

/-- C7: `oneOf` passes exactly when exactly one sub-schema passes (the
aggregate count over independently evaluated sub-schemas), the `integer`
type check rejects every boolean instance, and therefore validating
`Bool true` against `{oneOf: [{type: string}, {type: integer}]}` raises a
`ValidationError` reporting a `oneOf` failure. -/
theorem c7_oneof_integer_excludes_bool :
    (∀ (fuel : Nat) (b : Bool) (path : List Seg),
        isErr (check_type (fuel + 1) (.str "integer") (.bool b) path) = true) ∧
    (∀ (vs : List (Value × Value) → Value → List Seg → Except VErr Unit)
        (subs : List Value) (inst : Value) (path : List Seg),
        isErr (validate_composition vs "oneOf" subs inst path)
          = !((subs.map (fun sub =>
                isOkE (vs (asMapping (pyOrEmpty sub)) inst path))).count true == 1)) ∧
    validate hostStub
      (.mapping [(.str "oneOf", .seq [.mapping [(.str "type", .str "string")],
                                      .mapping [(.str "type", .str "integer")]])])
      (.bool true) = .error ⟨"instance failed oneOf", []⟩ := by
  refine ⟨?_, ?_, rfl⟩
  · intro fuel b path
    simp [check_type, typeMapNames, isErr]
  · intro vs subs inst path
    unfold validate_composition
    by_cases hc :
        ((subs.map (fun sub =>
          isOkE (vs (asMapping (pyOrEmpty sub)) inst path))).count true == 1) = true
    · simp [hc, isErr]
    · simp only [Bool.not_eq_true] at hc
      simp [hc, isErr]

/-- C8, counterexample.  The claim says a JSON-pointer fragment other than
a whole-document ref fails with an error; but `RefResolver.resolve` returns
the referrer unchanged for every reference beginning with `#`, so
`#/definitions/item` resolves to a schema value without any error. -/
theorem c8_counterexample_fragment_returns_referrer :
    resolve hostStub "" [(.str "type", .str "object")] "#/definitions/item"
      = .ok [(.str "type", .str "object")] ∧
    isErr (resolve hostStub "" [(.str "type", .str "object")] "#/definitions/item") = false :=
  ⟨rfl, rfl⟩

/-- C8 (amended): `RefResolver.resolve` returns the referrer unchanged for
every `#`-leading reference (fragments are not resolved), and resolves any
other reference — network URIs included, since no scheme is special-cased —
as a local path relative to the base location, failing with a
`ValidationError` naming the reference when no file exists at the target
(resolution never reaches the network). -/
theorem c8_resolver_unsupported_refs :
    (∀ (E : Host) (base : String) (referrer : List (Value × Value)) (r : String),
        strStarts r "#" = true →
        resolve E base referrer r = .ok referrer) ∧
    (∀ (E : Host) (base : String) (referrer : List (Value × Value)) (r : String),
        strStarts r "#" = false →
        (∀ p, E.fs p = Option.none) →
        resolve E base referrer r = .error ⟨"Reference target not found: " ++ r, []⟩) := by
  constructor
  · intro E base referrer r h
    unfold resolve
    simp [h]
  · intro E base referrer r h hfs
    unfold resolve
    simp [h, hfs]

/-- C8, witness: a JSON-pointer fragment returns the referrer; a network
URI, resolved as a nonexistent local path, raises the missing-target
error. -/
theorem c8_resolver_unsupported_refs_witness :
    resolve hostStub "" [(.str "a", .null)] "#/defs/x" = .ok [(.str "a", .null)] ∧
    resolve hostStub "" [] "http://example.com/schema.json"
      = .error ⟨"Reference target not found: http://example.com/schema.json", []⟩ :=
  ⟨c8_resolver_unsupported_refs.1 hostStub "" [(.str "a", .null)] "#/defs/x" (by decide),
   c8_resolver_unsupported_refs.2 hostStub "" [] "http://example.com/schema.json"
     (by decide) (fun _ => rfl)⟩

theorem check_no_additional_err {props inst : List (Value × Value)} {k v : Value}
    {path : List Seg} (hmem : (k, v) ∈ inst) (hlook : lookupVal props k = Option.none) :
    isErr (check_no_additional props inst path) = true := by
  induction inst with
  | nil => cases hmem
  | cons kv rest ih =>
    obtain ⟨k', v'⟩ := kv
    rcases List.mem_cons.mp hmem with heq | hmem'
    · obtain ⟨hk, hv⟩ := Prod.mk.injEq k v k' v' ▸ heq
      subst hk
      simp [check_no_additional, hlook, isErr]
    · cases hl : lookupVal props k' with
      | some w => simp [check_no_additional, hl]; exact ih hmem'
      | none => simp [check_no_additional, hl, isErr]

/-- C6, counterexample.  The claim says `additionalProperties: false` makes
every instance key absent from `properties` an error; but the source guards
the check with `and properties`, so with no (or an empty) `properties` the
keyword is silently ignored: the undeclared key `a` passes. -/
theorem c6_counterexample_additional_false_without_properties :
    validate hostStub (.mapping [(.str "additionalProperties", .bool false)])
      (.mapping [(.str "a", .int 1)]) = .ok () ∧
    isErr (validate hostStub (.mapping [(.str "additionalProperties", .bool false)])
      (.mapping [(.str "a", .int 1)])) = false :=
  ⟨rfl, rfl⟩

/-- C6 (amended): in `_validate_object`, when the schema carries
`additionalProperties: false` and a non-empty `properties` mapping, every
instance key absent from `properties` raises a `ValidationError` (with an
empty or missing `properties` the keyword checks nothing — the code's
`and properties` guard); when `additionalProperties` is itself a schema,
the value of such a key is instead validated against that schema. -/
theorem c6_additional_properties :
    (∀ (vs : List (Value × Value) → Value → List Seg → Except VErr Unit)
        (schema props inst : List (Value × Value)) (k v : Value) (path : List Seg),
        sget schema "additionalProperties" = some (.bool false) →
        sget schema "properties" = some (.mapping props) →
        props ≠ [] →
        (k, v) ∈ inst →
        lookupVal props k = Option.none →
        isErr (validate_object vs schema inst path) = true) ∧
    (∀ (vs : List (Value × Value) → Value → List Seg → Except VErr Unit)
        (schema adds : List (Value × Value)) (k v : Value) (path : List Seg),
        sget schema "required" = Option.none →
        sget schema "properties" = Option.none →
        sget schema "additionalProperties" = some (.mapping adds) →
        validate_object vs schema [(k, v)] path = vs adds v (path ++ [segOfValue k])) := by
  constructor
  · intro vs schema props inst k v path hadd hprops hne hmem hlook
    have hempty : props.isEmpty = false := by
      cases props with
      | nil => exact absurd rfl hne
      | cons a b => rfl
    unfold validate_object
    rw [hprops, hadd]
    cases hr : check_required (asSeq ((sget schema "required").getD (.seq []))) inst path with
    | error e => simp [seqE, hr, isErr]
    | ok u =>
      cases u
      cases hp : validate_props vs (asMapping (.mapping props)) inst path with
      | error e => simp [seqE, hr, hp, isErr]
      | ok u =>
        cases u
        simp only [asMapping] at hp
        simp [seqE, hr, hp, asMapping, hempty, check_no_additional_err hmem hlook]
  · intro vs schema adds k v path hreq hprops hadd
    unfold validate_object
    rw [hreq, hprops, hadd]
    simp only [Option.getD, asSeq, asMapping, check_required, validate_props, seqE]
    cases hv : vs adds v (path ++ [segOfValue k]) with
    | error e => simp [validate_additional, lookupVal, hv]
    | ok u => cases u; simp [validate_additional, lookupVal, hv]

/-- C6, witness: the forbidden-key branch fails on an undeclared key when
`properties` is non-empty, and the schema-valued branch validates the
undeclared key's value against the `additionalProperties` schema. -/
theorem c6_additional_properties_witness :
    isErr (validate_object (fun _ _ _ => .ok ())
      [(.str "properties", .mapping [(.str "name", .mapping [])]),
       (.str "additionalProperties", .bool false)]
      [(.str "a", .int 1)] []) = true ∧
    validate_object (fun _ i _ => check_type 2 (.str "integer") i [])
      [(.str "additionalProperties", .mapping [(.str "type", .str "integer")])]
      [(.str "a", .bool true)] []
      = check_type 2 (.str "integer") (.bool true) [] :=
  ⟨c6_additional_properties.1 (fun _ _ _ => .ok ())
      [(.str "properties", .mapping [(.str "name", .mapping [])]),
       (.str "additionalProperties", .bool false)]
      [(.str "name", .mapping [])] [(.str "a", .int 1)] (.str "a") (.int 1) []
      rfl rfl (by decide) (by decide) rfl,
   c6_additional_properties.2 (fun _ i _ => check_type 2 (.str "integer") i [])
      [(.str "additionalProperties", .mapping [(.str "type", .str "integer")])]
      [(.str "type", .str "integer")] (.str "a") (.bool true) []
      rfl rfl rfl⟩
